import Mathlib

/-!
Shallow embedding of the ReminderServer task-scheduling core
(`src/task.py`, `src/main.py`).

Python `datetime` day arithmetic (used by `TaskDate.add_days` in
`src/task.py`) is modelled by proleptic-Gregorian ordinal arithmetic,
which is exactly how CPython's `datetime` module implements
`datetime + timedelta(days=...)`: convert the date to its ordinal day
number (day 1 = January 1 of year 1), add the number of days, and
convert back.  `yearOrdStart` is CPython's `_ymd2ord` year part in
closed form; `fromOrd` recovers (year, month, day) from an ordinal.

Python integers are modelled by `Int`; `None`-able fields by `Option`.
A WebSocket connection is modelled by its owner's user id plus a flag
saying whether `send_text` succeeds on it; an exception raised by
`send_text` is modelled by the `Bool` component of the affected
operations (`false` = the exception propagates out of the operation).
-/

/-- Gregorian leap-year test (CPython `calendar.isleap`). -/
def isLeap (y : Nat) : Bool := (y % 4 == 0 && y % 100 != 0) || (y % 400 == 0)

/-- Number of days in month `m` of year `y` (0 for the unused month index 0). -/
def daysInMonth (y m : Nat) : Nat :=
  if m = 0 then 0
  else if m = 2 then (if isLeap y then 29 else 28)
  else if m = 4 ∨ m = 6 ∨ m = 9 ∨ m = 11 then 30
  else 31

def daysInYear (y : Nat) : Nat := if isLeap y then 366 else 365

/-- Days before month `m` in a non-leap year (CPython `_DAYS_BEFORE_MONTH`). -/
def daysBeforeMonthTable (m : Nat) : Nat :=
  if m ≤ 1 then 0 else if m = 2 then 31 else if m = 3 then 59 else if m = 4 then 90
  else if m = 5 then 120 else if m = 6 then 151 else if m = 7 then 181
  else if m = 8 then 212 else if m = 9 then 243 else if m = 10 then 273
  else if m = 11 then 304 else if m = 12 then 334 else 365

/-- Days in year `y` that precede month `m`. -/
def daysBeforeMonth (y m : Nat) : Nat :=
  daysBeforeMonthTable m + (if 3 ≤ m ∧ isLeap y then 1 else 0)

/-- Ordinal of the day before January 1 of year `y`
(CPython `_ymd2ord`'s year contribution, closed form). -/
def yearOrdStart (y : Nat) : Nat :=
  365 * (y - 1) + (y - 1) / 4 - (y - 1) / 100 + (y - 1) / 400

/-- Proleptic-Gregorian ordinal of a date (day 1 = 0001-01-01),
CPython `datetime.toordinal`. -/
def dateOrdinal (y m d : Nat) : Nat := yearOrdStart y + daysBeforeMonth y m + d

/-- Find the year containing ordinal day `n`, scanning upward from year `y`;
returns the year and the (1-based) day of that year.  `fuel` bounds the scan. -/
def yearFromOrd : Nat → Nat → Nat → Nat × Nat
  | 0, y, n => (y, n)
  | fuel + 1, y, n =>
    if n ≤ daysInYear y then (y, n)
    else yearFromOrd fuel (y + 1) (n - daysInYear y)

/-- Find the month containing day-of-year `n` of year `y`, scanning upward
from month `m`; returns the month and the day of that month. -/
def monthFromDay (y : Nat) : Nat → Nat → Nat → Nat × Nat
  | 0, m, n => (m, n)
  | fuel + 1, m, n =>
    if n ≤ daysInMonth y m then (m, n)
    else monthFromDay y fuel (m + 1) (n - daysInMonth y m)

/-- Date (year, month, day) of ordinal day `n`
(CPython `datetime.fromordinal`).  The year scan starts just below
`n / 366` so that only a few years are ever examined. -/
def fromOrd (n : Nat) : Nat × Nat × Nat :=
  match yearFromOrd n ((n - 1) / 366 + 1) (n - yearOrdStart ((n - 1) / 366 + 1)) with
  | (y, k) =>
    match monthFromDay y 12 1 k with
    | (m, d) => (y, m, d)

/-- `TaskDate` from `src/task.py`: a minute-resolution timestamp. -/
structure TaskDate where
  year : Nat
  month : Nat
  day : Nat
  hour : Nat
  minute : Nat
deriving DecidableEq, Repr

def TaskDate.ordinal (td : TaskDate) : Nat := dateOrdinal td.year td.month td.day

/-- Absolute minute count of a `TaskDate`; Python `datetime` comparison
(`TaskDate.__lt__` / `__eq__` convert via `to_datetime`) is comparison of
these numbers. -/
def TaskDate.toMinutes (td : TaskDate) : Nat :=
  1440 * td.ordinal + 60 * td.hour + td.minute

/-- `TaskDate.add_days` from `src/task.py`: convert to an ordinal, add the
days, write back year/month/day.  The hour and minute fields are not
assigned.  (For dates that Python's `datetime` range check would reject the
Python code raises; the model totalises via `Int.toNat`.) -/
def TaskDate.add_days (td : TaskDate) (days : Int) : TaskDate :=
  match fromOrd ((td.ordinal : Int) + days).toNat with
  | (y, m, d) => { td with year := y, month := m, day := d }

/-- A calendar-valid `TaskDate` (Python `datetime` would accept its fields). -/
def ValidTaskDate (td : TaskDate) : Prop :=
  1 ≤ td.year ∧ 1 ≤ td.month ∧ td.month ≤ 12 ∧ 1 ≤ td.day ∧
    td.day ≤ daysInMonth td.year td.month

instance (td : TaskDate) : Decidable (ValidTaskDate td) := by
  unfold ValidTaskDate; infer_instance

/-! ### Calendar correctness lemmas -/

theorem isLeap_iff (y : Nat) :
    isLeap y = true ↔ (y % 4 = 0 ∧ y % 100 ≠ 0) ∨ y % 400 = 0 := by
  unfold isLeap
  simp [Bool.or_eq_true, Bool.and_eq_true, beq_iff_eq, bne_iff_ne]

theorem daysInYear_ge (y : Nat) : 365 ≤ daysInYear y := by
  unfold daysInYear
  split <;> omega

theorem daysInMonth_pos (y m : Nat) (hm : 1 ≤ m) : 1 ≤ daysInMonth y m := by
  unfold daysInMonth
  split_ifs <;> omega

theorem yearOrdStart_succ (y : Nat) (hy : 1 ≤ y) :
    yearOrdStart (y + 1) = yearOrdStart y + daysInYear y := by
  obtain ⟨a, rfl⟩ : ∃ a, y = a + 1 := ⟨y - 1, by omega⟩
  unfold yearOrdStart daysInYear
  rw [Nat.add_sub_cancel, Nat.add_sub_cancel, Nat.succ_div a 4,
    Nat.succ_div a 100, Nat.succ_div a 400]
  have h100 : a / 100 ≤ a / 4 := Nat.div_le_div_left (by omega) (by omega)
  by_cases h : isLeap (a + 1) = true
  · rw [if_pos h]
    rw [isLeap_iff] at h
    split_ifs <;> omega
  · rw [if_neg h]
    rw [isLeap_iff] at h
    split_ifs <;> omega

theorem yearOrdStart_le (k : Nat) : yearOrdStart (k / 366 + 1) ≤ k := by
  unfold yearOrdStart
  rw [Nat.add_sub_cancel]
  have h4 : k / 366 / 4 ≤ k / 366 := Nat.div_le_self _ _
  have h100 : k / 366 / 100 ≤ k / 366 / 4 := Nat.div_le_div_left (by omega) (by omega)
  omega

theorem daysBeforeMonth_one (y : Nat) : daysBeforeMonth y 1 = 0 := rfl

theorem daysBeforeMonth_succ (y m : Nat) (h1 : 1 ≤ m) (h2 : m ≤ 12) :
    daysBeforeMonth y (m + 1) = daysBeforeMonth y m + daysInMonth y m := by
  interval_cases m <;> by_cases h : isLeap y = true <;>
    simp [daysBeforeMonth, daysBeforeMonthTable, daysInMonth, h]

theorem daysBeforeMonth_13 (y : Nat) : daysBeforeMonth y 13 = daysInYear y := by
  by_cases h : isLeap y = true <;>
    simp [daysBeforeMonth, daysBeforeMonthTable, daysInYear, h]

theorem yearFromOrd_spec (fuel : Nat) : ∀ (y n : Nat), 1 ≤ y → 1 ≤ n → n ≤ fuel →
    1 ≤ (yearFromOrd fuel y n).2 ∧
    (yearFromOrd fuel y n).2 ≤ daysInYear (yearFromOrd fuel y n).1 ∧
    y ≤ (yearFromOrd fuel y n).1 ∧
    yearOrdStart (yearFromOrd fuel y n).1 + (yearFromOrd fuel y n).2 =
      yearOrdStart y + n := by
  induction fuel with
  | zero => intro y n _ hn hfuel; omega
  | succ fuel ih =>
    intro y n hy hn hfuel
    unfold yearFromOrd
    by_cases h : n ≤ daysInYear y
    · rw [if_pos h]
      exact ⟨hn, h, le_refl y, rfl⟩
    · rw [if_neg h]
      have hd : 365 ≤ daysInYear y := daysInYear_ge y
      have hrec := ih (y + 1) (n - daysInYear y) (by omega) (by omega) (by omega)
      refine ⟨hrec.1, hrec.2.1, by omega, ?_⟩
      rw [hrec.2.2.2, yearOrdStart_succ y hy]
      omega

theorem monthFromDay_spec (y : Nat) (fuel : Nat) : ∀ (m n : Nat),
    1 ≤ m → m ≤ 12 → 13 ≤ m + fuel → 1 ≤ n →
    daysBeforeMonth y m + n ≤ daysInYear y →
    1 ≤ (monthFromDay y fuel m n).1 ∧
    (monthFromDay y fuel m n).1 ≤ 12 ∧
    1 ≤ (monthFromDay y fuel m n).2 ∧
    (monthFromDay y fuel m n).2 ≤ daysInMonth y (monthFromDay y fuel m n).1 ∧
    daysBeforeMonth y (monthFromDay y fuel m n).1 + (monthFromDay y fuel m n).2 =
      daysBeforeMonth y m + n := by
  induction fuel with
  | zero => intro m n hm1 hm2 hfuel _ _; omega
  | succ fuel ih =>
    intro m n hm1 hm2 hfuel hn hbound
    unfold monthFromDay
    by_cases h : n ≤ daysInMonth y m
    · rw [if_pos h]
      exact ⟨hm1, hm2, hn, h, rfl⟩
    · rw [if_neg h]
      have hm11 : m ≤ 11 := by
        rcases Nat.lt_or_ge m 12 with h12 | h12
        · omega
        · exfalso
          have hm12 : m = 12 := by omega
          subst hm12
          have : daysBeforeMonth y 13 = daysBeforeMonth y 12 + daysInMonth y 12 :=
            daysBeforeMonth_succ y 12 (by omega) (by omega)
          rw [daysBeforeMonth_13] at this
          omega
      have hstep : daysBeforeMonth y (m + 1) = daysBeforeMonth y m + daysInMonth y m :=
        daysBeforeMonth_succ y m hm1 (by omega)
      have hrec := ih (m + 1) (n - daysInMonth y m) (by omega) (by omega) (by omega)
        (by omega) (by omega)
      refine ⟨hrec.1, hrec.2.1, hrec.2.2.1, hrec.2.2.2.1, ?_⟩
      rw [hrec.2.2.2.2, hstep]
      omega

/-- Correctness of `fromOrd`: for every positive ordinal it returns a
calendar-valid (year, month, day) whose ordinal is the input. -/
theorem fromOrd_spec (n : Nat) (hn : 1 ≤ n) :
    1 ≤ (fromOrd n).1 ∧ 1 ≤ (fromOrd n).2.1 ∧ (fromOrd n).2.1 ≤ 12 ∧
    1 ≤ (fromOrd n).2.2 ∧ (fromOrd n).2.2 ≤ daysInMonth (fromOrd n).1 (fromOrd n).2.1 ∧
    dateOrdinal (fromOrd n).1 (fromOrd n).2.1 (fromOrd n).2.2 = n := by
  unfold fromOrd
  have hy0 : yearOrdStart ((n - 1) / 366 + 1) ≤ n - 1 := yearOrdStart_le (n - 1)
  have hyr := yearFromOrd_spec n ((n - 1) / 366 + 1) (n - yearOrdStart ((n - 1) / 366 + 1))
    (by omega) (by omega) (by omega)
  cases hY : yearFromOrd n ((n - 1) / 366 + 1) (n - yearOrdStart ((n - 1) / 366 + 1)) with
  | mk py pk =>
  rw [hY] at hyr
  simp only at hyr
  dsimp only
  have hmo := monthFromDay_spec py 12 (1 : Nat) pk (by omega) (by omega) (by omega) (by omega)
    (by rw [daysBeforeMonth_one]; omega)
  cases hM : monthFromDay py 12 1 pk with
  | mk qm qd =>
  rw [hM] at hmo
  simp only at hmo
  dsimp only
  rw [daysBeforeMonth_one] at hmo
  refine ⟨by omega, by omega, by omega, by omega, hmo.2.2.2.1, ?_⟩
  unfold dateOrdinal
  omega

/-! ### Task model (`src/task.py`) -/

namespace Reminder

inductive TaskStatus where
  | PENDING
  | TIMEUP
  | OUTDATED
deriving DecidableEq, Repr

structure Task where
  id : Int
  user_id : Int
  name : String
  description : String
  date : TaskDate
  repeat_days : Option Int
  repeat_count : Option Int
deriving DecidableEq, Repr

/-- `Task.time_check`: compare the task date with `now`.  Python compares
the corresponding `datetime` values, i.e. absolute minute counts. -/
def Task.time_check (t : Task) (now : TaskDate) : TaskStatus :=
  if t.date.toMinutes < now.toMinutes then .OUTDATED
  else if t.date.toMinutes = now.toMinutes then .TIMEUP
  else .PENDING

/-- `Task.update_next_occurrence` as a pure function returning the updated
task and the Python return value.  `if not self.repeat_days:` is true for
both `None` and `0`; when `repeat_count` is present it is decremented and
the result is `repeat_count > 0` after the decrement. -/
def Task.update_next_occurrence (t : Task) : Task × Bool :=
  match t.repeat_days with
  | none => (t, false)
  | some d =>
    if d = 0 then (t, false)
    else
      match t.repeat_count with
      | none => ({ t with date := t.date.add_days d }, true)
      | some c =>
        ({ t with date := t.date.add_days d, repeat_count := some (c - 1) },
          decide (0 < c - 1))

/-- The task after `k` successive firings (`update_next_occurrence` calls). -/
def iter_fire (t : Task) : Nat → Task
  | 0 => t
  | k + 1 => (Task.update_next_occurrence (iter_fire t k)).1

/-! ### Store, connections and scheduler loop (`src/task.py`, `src/main.py`) -/

/-- A record of `ConnectionManager.active_connections`: the resolved user id
plus whether `send_text` succeeds on this websocket. -/
structure Conn where
  user_id : Int
  ok : Bool
deriving DecidableEq, Repr

/-- The state of `TaskManager`: the in-memory `_tasks` list and the contents
last written to `tasks.json` by `_save_tasks`. -/
structure ManagerState where
  tasks : List Task
  file : List Task
deriving DecidableEq, Repr

/-- `TaskManager._save_tasks`: rewrite the backing file with the in-memory list. -/
def save_tasks (st : ManagerState) : ManagerState := { st with file := st.tasks }

/-- `TaskManager.add_task`: append unconditionally, then save. -/
def add_task (st : ManagerState) (t : Task) : ManagerState :=
  save_tasks { st with tasks := st.tasks ++ [t] }

/-- `TaskManager.remove_task`: drop every task with the given id, then save. -/
def remove_task (st : ManagerState) (task_id : Int) : ManagerState :=
  save_tasks { st with tasks := st.tasks.filter (fun t => t.id != task_id) }

/-- The id chosen by `create_task` in `src/main.py`:
`max(existing_ids, default=-1) + 1`. -/
def max_ids : List Int → Int
  | [] => -1
  | x :: xs => xs.foldl max x

def new_task_id (tasks : List Task) : Int := max_ids (tasks.map Task.id) + 1

/-- The delivery loop inside `_check_to_announce`: iterate over all
connections, sending to those owned by `uid`.  Returns the connections
actually delivered to, and `false` when a `send_text` raised — the
exception propagates immediately, skipping every later connection. -/
def send_to_user : List Conn → Int → List Conn × Bool
  | [], _ => ([], true)
  | c :: rest, uid =>
    if c.user_id = uid then
      if c.ok then
        match send_to_user rest uid with
        | (ds, good) => (c :: ds, good)
      else ([], false)
    else send_to_user rest uid

/-- `TaskManager._check_to_announce` for one task: the deliveries made, the
resulting manager state, and `false` when an exception escaped (in which
case nothing was mutated — the send loop runs before the store update).
Python mutates the fired `Task` object in place; since ids are store-unique
this is modelled by replacing the task with the matching id.  Note that in
the `continues` branch nothing is saved: only the in-memory list changes. -/
def check_to_announce (conns : List Conn) (now : TaskDate) (st : ManagerState)
    (task : Task) : List Conn × ManagerState × Bool :=
  if task.time_check now = TaskStatus.TIMEUP then
    match send_to_user conns task.user_id with
    | (ds, good) =>
      if good then
        match task.update_next_occurrence with
        | (t1, cont) =>
          if cont then
            (ds, { st with tasks := st.tasks.map (fun u => if u.id == task.id then t1 else u) },
              true)
          else (ds, remove_task st task.id, true)
      else (ds, st, false)
  else ([], st, true)

/-- One pass of `_check_tasks_loop` over a snapshot (`self._tasks.copy()`),
threading the store state; an escaped exception aborts the rest of the pass. -/
def run_pass_aux (conns : List Conn) (now : TaskDate) :
    List Task → ManagerState → List Conn × ManagerState × Bool
  | [], st => ([], st, true)
  | t :: rest, st =>
    match check_to_announce conns now st t with
    | (ds, st1, good) =>
      if good then
        match run_pass_aux conns now rest st1 with
        | (ds2, st2, good2) => (ds ++ ds2, st2, good2)
      else (ds, st1, false)

def run_pass (conns : List Conn) (now : TaskDate) (st : ManagerState) :
    List Conn × ManagerState × Bool :=
  run_pass_aux conns now st.tasks st

/-- `_check_tasks_loop`, one tick per entry of `nows`: an uncaught exception
terminates the loop's asyncio task (`false`); otherwise the loop is still
running when the tick list is exhausted (`true`). -/
def run_loop (conns : List Conn) : List TaskDate → ManagerState → ManagerState × Bool
  | [], st => (st, true)
  | now :: rest, st =>
    match run_pass conns now st with
    | (_, st1, good) =>
      if good then run_loop conns rest st1 else (st1, false)

/-! ### Helper lemmas about the model -/

theorem update_keeps_id (t : Task) : t.update_next_occurrence.1.id = t.id := by
  unfold Task.update_next_occurrence
  rcases hd : t.repeat_days with _ | d
  · rfl
  · by_cases h0 : d = 0
    · simp [h0]
    · rcases hc : t.repeat_count with _ | c <;> simp [h0]

theorem update_keeps_repeat_days (t : Task) :
    t.update_next_occurrence.1.repeat_days = t.repeat_days := by
  unfold Task.update_next_occurrence
  rcases hd : t.repeat_days with _ | d
  · exact hd
  · by_cases h0 : d = 0
    · simp [h0, hd]
    · rcases hc : t.repeat_count with _ | c <;> simp [h0, hd]

theorem mem_remove_task (st : ManagerState) (i : Int) (u : Task)
    (hu : u ∈ (remove_task st i).tasks) : u ∈ st.tasks ∧ u.id ≠ i := by
  unfold remove_task save_tasks at hu
  simp only [List.mem_filter, bne_iff_ne, ne_eq] at hu
  exact ⟨hu.1, hu.2⟩

/-- When a `TIMEUP` task's recurrence does not continue and no send raised,
`_check_to_announce` removes every task with its id from the store. -/
theorem check_to_announce_removes (conns : List Conn) (now : TaskDate)
    (st : ManagerState) (task : Task) (ds : List Conn) (st1 : ManagerState)
    (htime : task.time_check now = TaskStatus.TIMEUP)
    (hcont : task.update_next_occurrence.2 = false)
    (h : check_to_announce conns now st task = (ds, st1, true)) :
    ∀ u ∈ st1.tasks, u.id ≠ task.id := by
  unfold check_to_announce at h
  rw [if_pos htime] at h
  rcases hS : send_to_user conns task.user_id with ⟨ds0, good⟩
  rw [hS] at h
  rcases hU : task.update_next_occurrence with ⟨t1, cont⟩
  rw [hU] at h
  rw [hU] at hcont
  simp only at hcont
  subst hcont
  rcases good with _ | _ <;> simp at h
  obtain ⟨-, hst⟩ := h
  subst hst
  intro u hu
  exact (mem_remove_task st task.id u hu).2

/-- Any single evaluation step keeps an already-absent id absent: the step
only replaces a task by one with the same id or removes tasks. -/
theorem check_preserves_absent (conns : List Conn) (now : TaskDate)
    (st : ManagerState) (task : Task) (i : Int)
    (habs : ∀ u ∈ st.tasks, u.id ≠ i) :
    ∀ u ∈ (check_to_announce conns now st task).2.1.tasks, u.id ≠ i := by
  unfold check_to_announce
  by_cases htime : task.time_check now = TaskStatus.TIMEUP
  · rw [if_pos htime]
    rcases hS : send_to_user conns task.user_id with ⟨ds0, good⟩
    rcases good with _ | _
    · simpa using habs
    · rcases hU : task.update_next_occurrence with ⟨t1, cont⟩
      have ht1 : t1.id = task.id := by
        have := update_keeps_id task
        rw [hU] at this
        exact this
      rcases cont with _ | _
      · simp only [Bool.false_eq_true, if_true, if_false]
        intro u hu
        exact habs u (mem_remove_task st task.id u hu).1
      · simp only [if_true]
        intro u hu
        simp only [List.mem_map] at hu
        obtain ⟨v, hv, rfl⟩ := hu
        by_cases hvid : (v.id == task.id) = true
        · rw [if_pos hvid]
          rw [ht1]
          rw [beq_iff_eq] at hvid
          rw [← hvid]
          exact habs v hv
        · rw [if_neg (by simpa using hvid)]
          exact habs v hv
  · rw [if_neg htime]
    simpa using habs

/-- A whole evaluation pass keeps an already-absent id absent. -/
theorem pass_preserves_absent (conns : List Conn) (now : TaskDate) (i : Int) :
    ∀ (ts : List Task) (st : ManagerState),
    (∀ u ∈ st.tasks, u.id ≠ i) →
    ∀ u ∈ (run_pass_aux conns now ts st).2.1.tasks, u.id ≠ i := by
  intro ts
  induction ts with
  | nil => intro st habs; simpa [run_pass_aux] using habs
  | cons t rest ih =>
    intro st habs
    unfold run_pass_aux
    rcases hC : check_to_announce conns now st t with ⟨ds, st1, good⟩
    have habs1 : ∀ u ∈ st1.tasks, u.id ≠ i := by
      have := check_preserves_absent conns now st t i habs
      rw [hC] at this
      exact this
    rcases good with _ | _
    · simpa using habs1
    · simp only [if_pos]
      rcases hR : run_pass_aux conns now rest st1 with ⟨ds2, st2, good2⟩
      have := ih st1 habs1
      rw [hR] at this
      simpa using this

theorem foldl_max_le (xs : List Int) : ∀ (a : Int), a ≤ xs.foldl max a ∧
    ∀ x ∈ xs, x ≤ xs.foldl max a := by
  induction xs with
  | nil => intro a; simp
  | cons x xs ih =>
    intro a
    simp only [List.foldl_cons, List.mem_cons]
    refine ⟨le_trans (le_max_left a x) (ih (max a x)).1, ?_⟩
    rintro y (rfl | hy)
    · exact le_trans (le_max_right a y) (ih (max a y)).1
    · exact (ih (max a x)).2 y hy

theorem foldl_max_mem (xs : List Int) : ∀ (a : Int),
    xs.foldl max a = a ∨ xs.foldl max a ∈ xs := by
  induction xs with
  | nil => intro a; simp
  | cons x xs ih =>
    intro a
    simp only [List.foldl_cons, List.mem_cons]
    rcases ih (max a x) with h | h
    · rcases le_total a x with hax | hxa
      · right; left
        rw [h, max_eq_right hax]
      · left
        rw [h, max_eq_left hxa]
    · right; right; exact h

/-! ### Claim theorems -/

/-- C1: the id assigned to a newly created task (`create_task` in
`src/main.py`) is 0 when the store is empty, and otherwise is the id of
some stored task plus one while strictly exceeding every stored id — i.e.
it equals `max(existing ids) + 1` and is distinct from every stored id. -/
theorem claim_C1_new_task_id (tasks : List Task) :
    (tasks = [] → new_task_id tasks = 0) ∧
    (tasks ≠ [] → ∃ t ∈ tasks, new_task_id tasks = t.id + 1) ∧
    (∀ t ∈ tasks, t.id < new_task_id tasks) := by
  refine ⟨?_, ?_, ?_⟩
  · rintro rfl
    rfl
  · intro hne
    rcases tasks with _ | ⟨t0, rest⟩
    · exact absurd rfl hne
    · unfold new_task_id max_ids
      simp only [List.map_cons]
      rcases foldl_max_mem (rest.map Task.id) t0.id with h | h
      · exact ⟨t0, List.mem_cons_self t0 rest, by rw [h]⟩
      · simp only [List.mem_map] at h
        obtain ⟨u, hu, hid⟩ := h
        exact ⟨u, List.mem_cons_of_mem t0 hu, by rw [← hid]⟩
  · intro t ht
    rcases tasks with _ | ⟨t0, rest⟩
    · simp at ht
    · unfold new_task_id max_ids
      simp only [List.map_cons]
      rcases List.mem_cons.mp ht with rfl | hmem
      · have := (foldl_max_le (rest.map Task.id) t.id).1
        omega
      · have := (foldl_max_le (rest.map Task.id) t0.id).2 t.id
          (List.mem_map.mpr ⟨t, hmem, rfl⟩)
        omega

/-- Witness for C1 at concrete stores: the empty store yields id 0, and the
store with ids 0 and 7 yields some stored id plus one (namely 8). -/
theorem claim_C1_new_task_id_witness :
    new_task_id [] = 0 ∧
    (∃ t ∈ [Task.mk 0 1 "a" "b" (TaskDate.mk 1 1 1 0 0) none none,
            Task.mk 7 2 "c" "d" (TaskDate.mk 1 1 2 0 0) none none],
      new_task_id [Task.mk 0 1 "a" "b" (TaskDate.mk 1 1 1 0 0) none none,
                   Task.mk 7 2 "c" "d" (TaskDate.mk 1 1 2 0 0) none none] = t.id + 1) :=
  ⟨(claim_C1_new_task_id []).1 rfl,
   (claim_C1_new_task_id [Task.mk 0 1 "a" "b" (TaskDate.mk 1 1 1 0 0) none none,
      Task.mk 7 2 "c" "d" (TaskDate.mk 1 1 2 0 0) none none]).2.1 (by simp)⟩

/-- C4 counterexample: `add_task` does not fail on a colliding id — adding a
task whose id 0 is already stored simply succeeds and leaves two tasks with
id 0 in the store (there is no `DuplicateId` check anywhere in the code). -/
theorem claim_C4_counterexample :
    ((add_task
        (ManagerState.mk [Task.mk 0 1 "" "" (TaskDate.mk 1 1 1 0 0) none none]
          [Task.mk 0 1 "" "" (TaskDate.mk 1 1 1 0 0) none none])
        (Task.mk 0 2 "x" "y" (TaskDate.mk 1 2 3 4 5) none none)).tasks.filter
      (fun u => u.id == 0)).length = 2 := by decide

/-- C4 amended: `add_task` performs no id-collision check and never fails:
it appends the task unconditionally, so a call with a colliding id yields a
store holding one more task with that id than before. -/
theorem claim_C4_add_task_no_check (st : ManagerState) (t : Task) :
    (add_task st t).tasks = st.tasks ++ [t] ∧
    ((add_task st t).tasks.filter (fun u => u.id == t.id)).length =
      (st.tasks.filter (fun u => u.id == t.id)).length + 1 := by
  refine ⟨rfl, ?_⟩
  unfold add_task save_tasks
  simp [List.filter_append]

/-- C5: `update_next_occurrence` on a task with no repeat interval returns
`false` and leaves the task unchanged; on a positive interval `d` it adds
`d` days to the date and, when a remaining count `c` is present, decrements
it and returns `c - 1 > 0`, otherwise returns `true`. -/
theorem claim_C5_update_next_occurrence (t : Task) :
    (t.repeat_days = none → t.update_next_occurrence = (t, false)) ∧
    (∀ d : Int, t.repeat_days = some d → 0 < d →
      (t.repeat_count = none →
        t.update_next_occurrence = ({ t with date := t.date.add_days d }, true)) ∧
      (∀ c : Int, t.repeat_count = some c →
        t.update_next_occurrence =
          ({ t with date := t.date.add_days d, repeat_count := some (c - 1) },
            decide (0 < c - 1)))) := by
  refine ⟨?_, ?_⟩
  · intro h
    unfold Task.update_next_occurrence
    rw [h]
  · intro d hd hdpos
    refine ⟨?_, ?_⟩
    · intro hc
      unfold Task.update_next_occurrence
      rw [hd, hc]
      dsimp only
      rw [if_neg (by omega : ¬(d = 0))]
    · intro c hc
      unfold Task.update_next_occurrence
      rw [hd, hc]
      dsimp only
      rw [if_neg (by omega : ¬(d = 0))]

/-- Witness for C5: a non-recurring task is returned unchanged with `false`;
a daily task with 2 remaining advances one day, drops to 1 remaining and
continues. -/
theorem claim_C5_update_next_occurrence_witness :
    (Task.mk 0 1 "" "" (TaskDate.mk 1 1 1 8 0) none none).update_next_occurrence =
      (Task.mk 0 1 "" "" (TaskDate.mk 1 1 1 8 0) none none, false) ∧
    (Task.mk 0 1 "" "" (TaskDate.mk 1 1 1 8 0) (some 1) (some 2)).update_next_occurrence =
      (Task.mk 0 1 "" "" (TaskDate.mk 1 1 2 8 0) (some 1) (some 1), true) := by
  refine ⟨(claim_C5_update_next_occurrence _).1 rfl, ?_⟩
  have h := ((claim_C5_update_next_occurrence
    (Task.mk 0 1 "" "" (TaskDate.mk 1 1 1 8 0) (some 1) (some 2))).2 1 rfl
    (by decide)).2 2 rfl
  rw [h]
  decide

/-- C9: a task whose `repeat_days` is 0 (accepted by `TaskCreate` in
`src/main.py`, whose `repeat_days` field is an unconstrained optional int)
is treated as non-recurring, because `if not self.repeat_days:` is true
for 0: `update_next_occurrence` returns `false` with the task unchanged
(date and `repeat_count` untouched), so after a firing the task is removed
even when its `repeat_count` is positive. -/
theorem claim_C9_zero_interval (t : Task) (h0 : t.repeat_days = some 0) :
    t.update_next_occurrence = (t, false) ∧
    ∀ (conns : List Conn) (now : TaskDate) (st : ManagerState) (ds : List Conn)
      (st1 : ManagerState),
      t.time_check now = TaskStatus.TIMEUP →
      check_to_announce conns now st t = (ds, st1, true) →
      ∀ u ∈ st1.tasks, u.id ≠ t.id := by
  have hupd : t.update_next_occurrence = (t, false) := by
    unfold Task.update_next_occurrence
    rw [h0]
    simp
  refine ⟨hupd, ?_⟩
  intro conns now st ds st1 htime hch
  exact check_to_announce_removes conns now st t ds st1 htime (by rw [hupd]) hch

/-- Witness for C9: a task with `repeat_days = 0` and a positive
`repeat_count = 5` fires at its date and is removed from the store, while
a second task (id 9) survives. -/
theorem claim_C9_zero_interval_witness :
    (Task.mk 3 7 "" "" (TaskDate.mk 1 1 1 0 0) (some 0) (some 5)).update_next_occurrence =
      (Task.mk 3 7 "" "" (TaskDate.mk 1 1 1 0 0) (some 0) (some 5), false) ∧
    (∀ u ∈ (ManagerState.mk [Task.mk 9 7 "" "" (TaskDate.mk 2 1 1 0 0) none none]
        [Task.mk 9 7 "" "" (TaskDate.mk 2 1 1 0 0) none none]).tasks,
      u.id ≠ (Task.mk 3 7 "" "" (TaskDate.mk 1 1 1 0 0) (some 0) (some 5)).id) :=
  ⟨(claim_C9_zero_interval (Task.mk 3 7 "" "" (TaskDate.mk 1 1 1 0 0) (some 0) (some 5)) rfl).1,
   (claim_C9_zero_interval (Task.mk 3 7 "" "" (TaskDate.mk 1 1 1 0 0) (some 0) (some 5)) rfl).2
     [] (TaskDate.mk 1 1 1 0 0)
     (ManagerState.mk
       [Task.mk 3 7 "" "" (TaskDate.mk 1 1 1 0 0) (some 0) (some 5),
        Task.mk 9 7 "" "" (TaskDate.mk 2 1 1 0 0) none none]
       [Task.mk 3 7 "" "" (TaskDate.mk 1 1 1 0 0) (some 0) (some 5),
        Task.mk 9 7 "" "" (TaskDate.mk 2 1 1 0 0) none none])
     []
     (ManagerState.mk [Task.mk 9 7 "" "" (TaskDate.mk 2 1 1 0 0) none none]
       [Task.mk 9 7 "" "" (TaskDate.mk 2 1 1 0 0) none none])
     (by decide) (by decide)⟩

/-- C10: `add_days` writes back only the year, month and day computed from
the ordinal arithmetic; the hour and minute fields are never assigned, so a
recurring task advanced by `update_next_occurrence` keeps its time of day. -/
theorem claim_C10_add_days_frame :
    (∀ (td : TaskDate) (days : Int),
      (td.add_days days).hour = td.hour ∧ (td.add_days days).minute = td.minute) ∧
    (∀ t : Task,
      t.update_next_occurrence.1.date.hour = t.date.hour ∧
      t.update_next_occurrence.1.date.minute = t.date.minute) := by
  have hadd : ∀ (td : TaskDate) (days : Int),
      (td.add_days days).hour = td.hour ∧ (td.add_days days).minute = td.minute := by
    intro td days
    unfold TaskDate.add_days
    rcases fromOrd (((td.ordinal : Int) + days).toNat) with ⟨y, m, d⟩
    exact ⟨rfl, rfl⟩
  refine ⟨hadd, ?_⟩
  intro t
  unfold Task.update_next_occurrence
  rcases hd : t.repeat_days with _ | d
  · exact ⟨rfl, rfl⟩
  · by_cases h0 : d = 0
    · simp [h0]
    · rcases hc : t.repeat_count with _ | c <;> simp [h0] <;> exact hadd t.date d

/-- C6: `add_days` with a positive day count is calendar addition: on any
valid date it yields a valid date whose absolute ordinal grows by exactly
the day count, and in particular it rolls over month and year boundaries
(Jan 31 2024 + 1 day = Feb 1 2024; Dec 31 2023 + 1 day = Jan 1 2024). -/
theorem claim_C6_add_days_calendar :
    (∀ (td : TaskDate) (days : Int), ValidTaskDate td → 0 < days →
      ValidTaskDate (td.add_days days) ∧
      ((td.add_days days).ordinal : Int) = (td.ordinal : Int) + days) ∧
    TaskDate.add_days (TaskDate.mk 2024 1 31 9 0) 1 = TaskDate.mk 2024 2 1 9 0 ∧
    TaskDate.add_days (TaskDate.mk 2023 12 31 9 0) 1 = TaskDate.mk 2024 1 1 9 0 := by
  refine ⟨?_, by decide, by decide⟩
  intro td days hvalid hpos
  obtain ⟨hy, hm1, hm2, hd1, hd2⟩ := hvalid
  have hord : 1 ≤ td.ordinal := by
    unfold TaskDate.ordinal dateOrdinal
    omega
  have hn1 : 1 ≤ ((td.ordinal : Int) + days).toNat := by omega
  have hspec := fromOrd_spec (((td.ordinal : Int) + days).toNat) hn1
  unfold TaskDate.add_days
  rcases hF : fromOrd (((td.ordinal : Int) + days).toNat) with ⟨y, m, d⟩
  rw [hF] at hspec
  simp only at hspec
  dsimp only
  constructor
  · unfold ValidTaskDate
    dsimp only
    exact ⟨hspec.1, hspec.2.1, hspec.2.2.1, hspec.2.2.2.1, hspec.2.2.2.2.1⟩
  · unfold TaskDate.ordinal
    dsimp only
    rw [hspec.2.2.2.2.2]
    have hre : td.ordinal = dateOrdinal td.year td.month td.day := rfl
    omega

/-- Witness for C6: Feb 28 2024 (a leap year) plus 2 days is a valid date
two ordinal days later (namely Mar 1 2024). -/
theorem claim_C6_add_days_calendar_witness :
    ValidTaskDate (TaskDate.mk 2024 2 28 10 0) ∧ (0 : Int) < 2 ∧
    ValidTaskDate (TaskDate.add_days (TaskDate.mk 2024 2 28 10 0) 2) ∧
    ((TaskDate.add_days (TaskDate.mk 2024 2 28 10 0) 2).ordinal : Int) =
      ((TaskDate.mk 2024 2 28 10 0).ordinal : Int) + 2 :=
  ⟨by decide, by decide,
   (claim_C6_add_days_calendar.1 (TaskDate.mk 2024 2 28 10 0) 2 (by decide) (by decide)).1,
   (claim_C6_add_days_calendar.1 (TaskDate.mk 2024 2 28 10 0) 2 (by decide) (by decide)).2⟩

/-- C7: a task with no recurrence interval that the evaluation step sees as
`TIMEUP` and fires (the step returns without an exception) is removed: no
task with its id is in the resulting store, nor after the remainder of the
pass runs, so the next evaluation pass does not see it. -/
theorem claim_C7_nonrecurring_removed (conns : List Conn) (now : TaskDate)
    (st : ManagerState) (t : Task) (ds : List Conn) (st1 : ManagerState)
    (hdays : t.repeat_days = none)
    (htime : t.time_check now = TaskStatus.TIMEUP)
    (hch : check_to_announce conns now st t = (ds, st1, true)) :
    (∀ u ∈ st1.tasks, u.id ≠ t.id) ∧
    (∀ rest : List Task,
      ∀ u ∈ (run_pass_aux conns now rest st1).2.1.tasks, u.id ≠ t.id) := by
  have hupd : t.update_next_occurrence.2 = false := by
    unfold Task.update_next_occurrence
    rw [hdays]
  have h1 := check_to_announce_removes conns now st t ds st1 htime hupd hch
  exact ⟨h1, fun rest => pass_preserves_absent conns now t.id rest st1 h1⟩

/-- Witness for C7: a non-recurring task (id 0) due now fires, is delivered
to its user's connection, and the store that the next pass will read holds
only the other task (id 5). -/
theorem claim_C7_nonrecurring_removed_witness :
    check_to_announce [Conn.mk 1 true] (TaskDate.mk 1 1 1 0 0)
      (ManagerState.mk
        [Task.mk 0 1 "" "" (TaskDate.mk 1 1 1 0 0) none none,
         Task.mk 5 2 "" "" (TaskDate.mk 2 1 1 0 0) none none]
        [Task.mk 0 1 "" "" (TaskDate.mk 1 1 1 0 0) none none,
         Task.mk 5 2 "" "" (TaskDate.mk 2 1 1 0 0) none none])
      (Task.mk 0 1 "" "" (TaskDate.mk 1 1 1 0 0) none none) =
      ([Conn.mk 1 true],
        ManagerState.mk [Task.mk 5 2 "" "" (TaskDate.mk 2 1 1 0 0) none none]
          [Task.mk 5 2 "" "" (TaskDate.mk 2 1 1 0 0) none none], true) ∧
    (∀ u ∈ (ManagerState.mk [Task.mk 5 2 "" "" (TaskDate.mk 2 1 1 0 0) none none]
        [Task.mk 5 2 "" "" (TaskDate.mk 2 1 1 0 0) none none]).tasks,
      u.id ≠ (0 : Int)) :=
  ⟨by decide,
   (claim_C7_nonrecurring_removed [Conn.mk 1 true] (TaskDate.mk 1 1 1 0 0)
      (ManagerState.mk
        [Task.mk 0 1 "" "" (TaskDate.mk 1 1 1 0 0) none none,
         Task.mk 5 2 "" "" (TaskDate.mk 2 1 1 0 0) none none]
        [Task.mk 0 1 "" "" (TaskDate.mk 1 1 1 0 0) none none,
         Task.mk 5 2 "" "" (TaskDate.mk 2 1 1 0 0) none none])
      (Task.mk 0 1 "" "" (TaskDate.mk 1 1 1 0 0) none none)
      [Conn.mk 1 true]
      (ManagerState.mk [Task.mk 5 2 "" "" (TaskDate.mk 2 1 1 0 0) none none]
        [Task.mk 5 2 "" "" (TaskDate.mk 2 1 1 0 0) none none])
      rfl (by decide) (by decide)).1⟩

theorem update_eq_of_some (u : Task) (d e : Int) (hd : u.repeat_days = some d)
    (h0 : ¬(d = 0)) (he : u.repeat_count = some e) :
    u.update_next_occurrence =
      ({ u with date := u.date.add_days d, repeat_count := some (e - 1) },
        decide (0 < e - 1)) := by
  unfold Task.update_next_occurrence
  rw [hd, he]
  dsimp only
  rw [if_neg h0]

theorem iter_fire_invariant (t : Task) (d : Int) (hd : t.repeat_days = some d)
    (h0 : ¬(d = 0)) (c : Int) (hc : t.repeat_count = some c) (k : Nat) :
    (iter_fire t k).repeat_days = some d ∧
    (iter_fire t k).repeat_count = some (c - k) ∧
    (iter_fire t k).id = t.id := by
  induction k with
  | zero =>
    refine ⟨hd, ?_, rfl⟩
    show t.repeat_count = some (c - ((0 : Nat) : Int))
    rw [hc]
    norm_num
  | succ k ih =>
    obtain ⟨ihd, ihc, ihi⟩ := ih
    unfold iter_fire
    rw [update_eq_of_some (iter_fire t k) d (c - (k : Int)) ihd h0 ihc]
    refine ⟨ihd, ?_, ihi⟩
    dsimp only
    congr 1
    push_cast
    ring

/-- C8: a task with interval `d ≠ 0` and finite count `N ≥ 1` continues
only on the first `N - 1` firings: the `N`-th call of
`update_next_occurrence` returns `false` (its decrement leaves the count at
0), and the firing whose update returns `false` removes every task with its
id from the store — so the task fires at most `N` times. -/
theorem claim_C8_finite_recurrence (t : Task) (d : Int) (N : Nat)
    (hd : t.repeat_days = some d) (h0 : ¬(d = 0))
    (hc : t.repeat_count = some (N : Int)) (hN : 1 ≤ N) :
    (∀ k : Nat, k + 1 < N → (iter_fire t k).update_next_occurrence.2 = true) ∧
    (iter_fire t (N - 1)).update_next_occurrence.2 = false ∧
    (iter_fire t N).repeat_count = some 0 ∧
    (∀ (conns : List Conn) (now : TaskDate) (st : ManagerState) (ds : List Conn)
        (st1 : ManagerState),
      (iter_fire t (N - 1)).time_check now = TaskStatus.TIMEUP →
      check_to_announce conns now st (iter_fire t (N - 1)) = (ds, st1, true) →
      ∀ u ∈ st1.tasks, u.id ≠ t.id) := by
  have hfalse : (iter_fire t (N - 1)).update_next_occurrence.2 = false := by
    obtain ⟨ihd, ihc, -⟩ := iter_fire_invariant t d hd h0 (N : Int) hc (N - 1)
    rw [update_eq_of_some (iter_fire t (N - 1)) d ((N : Int) - ((N - 1 : Nat) : Int))
      ihd h0 ihc]
    dsimp only
    simp only [decide_eq_false_iff_not]
    omega
  refine ⟨?_, hfalse, ?_, ?_⟩
  · intro k hk
    obtain ⟨ihd, ihc, -⟩ := iter_fire_invariant t d hd h0 (N : Int) hc k
    rw [update_eq_of_some (iter_fire t k) d ((N : Int) - (k : Int)) ihd h0 ihc]
    dsimp only
    simp only [decide_eq_true_eq]
    omega
  · obtain ⟨-, ihc, -⟩ := iter_fire_invariant t d hd h0 (N : Int) hc N
    rw [ihc]
    norm_num
  · intro conns now st ds st1 htime hch
    obtain ⟨-, -, ihi⟩ := iter_fire_invariant t d hd h0 (N : Int) hc (N - 1)
    intro u hu
    rw [← ihi]
    exact check_to_announce_removes conns now st _ ds st1 htime hfalse hch u hu

/-- Witness for C8: a daily task with count 2 continues after its first
firing, its second firing returns `false` with the count at 0, and that
firing removes it from the store. -/
theorem claim_C8_finite_recurrence_witness :
    (iter_fire (Task.mk 0 1 "" "" (TaskDate.mk 1 1 1 0 0) (some 1) (some 2))
      1).update_next_occurrence.2 = false ∧
    (iter_fire (Task.mk 0 1 "" "" (TaskDate.mk 1 1 1 0 0) (some 1) (some 2))
      2).repeat_count = some 0 ∧
    (∀ u ∈ (ManagerState.mk ([] : List Task) ([] : List Task)).tasks,
      u.id ≠ (0 : Int)) :=
  have h := claim_C8_finite_recurrence
    (Task.mk 0 1 "" "" (TaskDate.mk 1 1 1 0 0) (some 1) (some 2)) 1 2
    rfl (by decide) rfl (by decide)
  ⟨h.2.1, h.2.2.1,
   h.2.2.2 [] (TaskDate.mk 1 1 2 0 0)
     (ManagerState.mk
       [iter_fire (Task.mk 0 1 "" "" (TaskDate.mk 1 1 1 0 0) (some 1) (some 2)) 1]
       [iter_fire (Task.mk 0 1 "" "" (TaskDate.mk 1 1 1 0 0) (some 1) (some 2)) 1])
     [] (ManagerState.mk [] []) (by decide) (by decide)⟩

/-- C2 counterexample: a fired daily task (infinite recurrence) continues;
the evaluation step returns normally, the in-memory store holds the
advanced task, but the backing file still holds the stale one — the
mutation was not persisted during that evaluation step. -/
theorem claim_C2_counterexample :
    (check_to_announce [] (TaskDate.mk 1 1 1 0 0)
      (ManagerState.mk [Task.mk 0 1 "" "" (TaskDate.mk 1 1 1 0 0) (some 1) none]
        [Task.mk 0 1 "" "" (TaskDate.mk 1 1 1 0 0) (some 1) none])
      (Task.mk 0 1 "" "" (TaskDate.mk 1 1 1 0 0) (some 1) none)).2.2 = true ∧
    (check_to_announce [] (TaskDate.mk 1 1 1 0 0)
      (ManagerState.mk [Task.mk 0 1 "" "" (TaskDate.mk 1 1 1 0 0) (some 1) none]
        [Task.mk 0 1 "" "" (TaskDate.mk 1 1 1 0 0) (some 1) none])
      (Task.mk 0 1 "" "" (TaskDate.mk 1 1 1 0 0) (some 1) none)).2.1.tasks ≠
      (check_to_announce [] (TaskDate.mk 1 1 1 0 0)
        (ManagerState.mk [Task.mk 0 1 "" "" (TaskDate.mk 1 1 1 0 0) (some 1) none]
          [Task.mk 0 1 "" "" (TaskDate.mk 1 1 1 0 0) (some 1) none])
        (Task.mk 0 1 "" "" (TaskDate.mk 1 1 1 0 0) (some 1) none)).2.1.file := by
  decide

/-- C2 amended: `add_task` and `remove_task` do rewrite the backing store
before returning, and a firing that removes an exhausted task leaves the
file equal to the store; but when a fired recurring task continues, the
advanced task is only updated in memory — the backing file is exactly what
it was before the step. -/
theorem claim_C2_persistence (st : ManagerState) :
    (∀ t : Task, (add_task st t).file = (add_task st t).tasks) ∧
    (∀ i : Int, (remove_task st i).file = (remove_task st i).tasks) ∧
    (∀ (conns : List Conn) (now : TaskDate) (t : Task) (ds : List Conn)
        (st1 : ManagerState),
      t.update_next_occurrence.2 = true →
      check_to_announce conns now st t = (ds, st1, true) →
      st1.file = st.file) ∧
    (∀ (conns : List Conn) (now : TaskDate) (t : Task) (ds : List Conn)
        (st1 : ManagerState),
      t.time_check now = TaskStatus.TIMEUP →
      t.update_next_occurrence.2 = false →
      check_to_announce conns now st t = (ds, st1, true) →
      st1.file = st1.tasks) := by
  refine ⟨fun t => rfl, fun i => rfl, ?_, ?_⟩
  · intro conns now t ds st1 hcont hch
    unfold check_to_announce at hch
    by_cases htime : t.time_check now = TaskStatus.TIMEUP
    · rw [if_pos htime] at hch
      rcases hS : send_to_user conns t.user_id with ⟨ds0, good⟩
      rw [hS] at hch
      rcases hU : t.update_next_occurrence with ⟨t1, cont⟩
      rw [hU] at hch
      rw [hU] at hcont
      simp only at hcont
      subst hcont
      rcases good with _ | _ <;> simp at hch
      obtain ⟨-, hst⟩ := hch
      subst hst
      rfl
    · rw [if_neg htime] at hch
      simp at hch
      obtain ⟨-, hst⟩ := hch
      subst hst
      rfl
  · intro conns now t ds st1 htime hcont hch
    unfold check_to_announce at hch
    rw [if_pos htime] at hch
    rcases hS : send_to_user conns t.user_id with ⟨ds0, good⟩
    rw [hS] at hch
    rcases hU : t.update_next_occurrence with ⟨t1, cont⟩
    rw [hU] at hch
    rw [hU] at hcont
    simp only at hcont
    subst hcont
    rcases good with _ | _ <;> simp at hch
    obtain ⟨-, hst⟩ := hch
    subst hst
    rfl

/-- Witness for C2 amended: adding a task persists it, and the continuing
fire of a daily task leaves the file untouched (holding the stale task)
while the store holds the advanced one. -/
theorem claim_C2_persistence_witness :
    (add_task (ManagerState.mk [] [])
      (Task.mk 0 1 "" "" (TaskDate.mk 1 1 1 0 0) (some 1) none)).file =
      (add_task (ManagerState.mk [] [])
        (Task.mk 0 1 "" "" (TaskDate.mk 1 1 1 0 0) (some 1) none)).tasks ∧
    (ManagerState.mk [Task.mk 0 1 "" "" (TaskDate.mk 1 1 2 0 0) (some 1) none]
      [Task.mk 0 1 "" "" (TaskDate.mk 1 1 1 0 0) (some 1) none]).file =
      (ManagerState.mk [Task.mk 0 1 "" "" (TaskDate.mk 1 1 1 0 0) (some 1) none]
        [Task.mk 0 1 "" "" (TaskDate.mk 1 1 1 0 0) (some 1) none]).file :=
  ⟨(claim_C2_persistence (ManagerState.mk [] [])).1
      (Task.mk 0 1 "" "" (TaskDate.mk 1 1 1 0 0) (some 1) none),
   (claim_C2_persistence
      (ManagerState.mk [Task.mk 0 1 "" "" (TaskDate.mk 1 1 1 0 0) (some 1) none]
        [Task.mk 0 1 "" "" (TaskDate.mk 1 1 1 0 0) (some 1) none])).2.2.1
     [] (TaskDate.mk 1 1 1 0 0)
     (Task.mk 0 1 "" "" (TaskDate.mk 1 1 1 0 0) (some 1) none)
     []
     (ManagerState.mk [Task.mk 0 1 "" "" (TaskDate.mk 1 1 2 0 0) (some 1) none]
       [Task.mk 0 1 "" "" (TaskDate.mk 1 1 1 0 0) (some 1) none])
     (by decide) (by decide)⟩

/-- C3 counterexample: with a failing connection listed before a valid one
for the same user, the firing delivers to nobody (the valid connection is
skipped), the pass aborts before the second due task (which stays in the
store), and the scheduler loop terminates with ticks remaining. -/
theorem claim_C3_counterexample :
    run_pass [Conn.mk 1 false, Conn.mk 1 true] (TaskDate.mk 1 1 1 0 0)
      (ManagerState.mk
        [Task.mk 0 1 "" "" (TaskDate.mk 1 1 1 0 0) none none,
         Task.mk 1 1 "" "" (TaskDate.mk 1 1 1 0 0) none none]
        [Task.mk 0 1 "" "" (TaskDate.mk 1 1 1 0 0) none none,
         Task.mk 1 1 "" "" (TaskDate.mk 1 1 1 0 0) none none]) =
      ([],
        ManagerState.mk
          [Task.mk 0 1 "" "" (TaskDate.mk 1 1 1 0 0) none none,
           Task.mk 1 1 "" "" (TaskDate.mk 1 1 1 0 0) none none]
          [Task.mk 0 1 "" "" (TaskDate.mk 1 1 1 0 0) none none,
           Task.mk 1 1 "" "" (TaskDate.mk 1 1 1 0 0) none none], false) ∧
    run_loop [Conn.mk 1 false, Conn.mk 1 true]
      [TaskDate.mk 1 1 1 0 0, TaskDate.mk 1 1 1 0 6, TaskDate.mk 1 1 1 0 12]
      (ManagerState.mk
        [Task.mk 0 1 "" "" (TaskDate.mk 1 1 1 0 0) none none,
         Task.mk 1 1 "" "" (TaskDate.mk 1 1 1 0 0) none none]
        [Task.mk 0 1 "" "" (TaskDate.mk 1 1 1 0 0) none none,
         Task.mk 1 1 "" "" (TaskDate.mk 1 1 1 0 0) none none]) =
      (ManagerState.mk
        [Task.mk 0 1 "" "" (TaskDate.mk 1 1 1 0 0) none none,
         Task.mk 1 1 "" "" (TaskDate.mk 1 1 1 0 0) none none]
        [Task.mk 0 1 "" "" (TaskDate.mk 1 1 1 0 0) none none,
         Task.mk 1 1 "" "" (TaskDate.mk 1 1 1 0 0) none none], false) := by
  decide

/-- C3 amended: a raising `send_text` is not isolated.  A failing connection
stops the delivery loop (only matching connections before it receive the
notification), an evaluation step that raised aborts the rest of the pass,
and a pass that raised terminates the scheduler loop no matter how many
ticks remain. -/
theorem claim_C3_failure_propagates :
    (∀ (pre post : List Conn) (c : Conn) (uid : Int),
      (∀ c2 ∈ pre, c2.user_id = uid → c2.ok = true) →
      c.user_id = uid → c.ok = false →
      send_to_user (pre ++ c :: post) uid =
        (pre.filter (fun x => x.user_id == uid), false)) ∧
    (∀ (conns : List Conn) (now : TaskDate) (t : Task) (rest : List Task)
        (st : ManagerState) (ds : List Conn) (st1 : ManagerState),
      check_to_announce conns now st t = (ds, st1, false) →
      run_pass_aux conns now (t :: rest) st = (ds, st1, false)) ∧
    (∀ (conns : List Conn) (now : TaskDate) (rest : List TaskDate)
        (st st1 : ManagerState) (ds : List Conn),
      run_pass conns now st = (ds, st1, false) →
      run_loop conns (now :: rest) st = (st1, false)) := by
  refine ⟨?_, ?_, ?_⟩
  · intro pre
    induction pre with
    | nil =>
      intro post c uid hpre hc hok
      rw [List.nil_append]
      unfold send_to_user
      dsimp only
      rw [if_pos hc, hok]
      simp
    | cons p pre ih =>
      intro post c uid hpre hc hok
      rw [List.cons_append]
      unfold send_to_user
      by_cases hp : p.user_id = uid
      · rw [if_pos hp]
        have hpok : p.ok = true := hpre p (List.mem_cons_self p pre) hp
        rw [hpok]
        rw [ih post c uid (fun c2 hc2 hu2 => hpre c2 (List.mem_cons_of_mem p hc2) hu2)
          hc hok]
        simp [List.filter_cons, hp]
      · rw [if_neg hp]
        rw [ih post c uid (fun c2 hc2 hu2 => hpre c2 (List.mem_cons_of_mem p hc2) hu2)
          hc hok]
        simp [List.filter_cons, hp]
  · intro conns now t rest st ds st1 hch
    unfold run_pass_aux
    rw [hch]
    simp
  · intro conns now rest st st1 ds hrp
    unfold run_loop
    rw [hrp]
    simp

/-- Witness for C3 amended: a failing connection between two valid ones for
user 1 yields delivery only to the first; a raising step with a due task
behind it freezes the pass; a raising pass stops the loop with two ticks
left. -/
theorem claim_C3_failure_propagates_witness :
    send_to_user [Conn.mk 1 true, Conn.mk 1 false, Conn.mk 1 true] 1 =
      ([Conn.mk 1 true], false) ∧
    run_pass_aux [Conn.mk 1 false] (TaskDate.mk 1 1 1 0 0)
      [Task.mk 0 1 "" "" (TaskDate.mk 1 1 1 0 0) none none,
       Task.mk 1 1 "" "" (TaskDate.mk 1 1 1 0 0) none none]
      (ManagerState.mk
        [Task.mk 0 1 "" "" (TaskDate.mk 1 1 1 0 0) none none,
         Task.mk 1 1 "" "" (TaskDate.mk 1 1 1 0 0) none none]
        [Task.mk 0 1 "" "" (TaskDate.mk 1 1 1 0 0) none none,
         Task.mk 1 1 "" "" (TaskDate.mk 1 1 1 0 0) none none]) =
      ([],
        ManagerState.mk
          [Task.mk 0 1 "" "" (TaskDate.mk 1 1 1 0 0) none none,
           Task.mk 1 1 "" "" (TaskDate.mk 1 1 1 0 0) none none]
          [Task.mk 0 1 "" "" (TaskDate.mk 1 1 1 0 0) none none,
           Task.mk 1 1 "" "" (TaskDate.mk 1 1 1 0 0) none none], false) ∧
    run_loop [Conn.mk 1 false]
      [TaskDate.mk 1 1 1 0 0, TaskDate.mk 1 1 1 0 6, TaskDate.mk 1 1 1 0 12]
      (ManagerState.mk [Task.mk 0 1 "" "" (TaskDate.mk 1 1 1 0 0) none none]
        [Task.mk 0 1 "" "" (TaskDate.mk 1 1 1 0 0) none none]) =
      (ManagerState.mk [Task.mk 0 1 "" "" (TaskDate.mk 1 1 1 0 0) none none]
        [Task.mk 0 1 "" "" (TaskDate.mk 1 1 1 0 0) none none], false) := by
  refine ⟨?_, ?_, ?_⟩
  · have h := claim_C3_failure_propagates.1 [Conn.mk 1 true] [Conn.mk 1 true]
      (Conn.mk 1 false) 1 (by decide) (by decide) (by decide)
    rw [List.cons_append, List.nil_append] at h
    rw [h]
    decide
  · exact claim_C3_failure_propagates.2.1 [Conn.mk 1 false] (TaskDate.mk 1 1 1 0 0)
      (Task.mk 0 1 "" "" (TaskDate.mk 1 1 1 0 0) none none)
      [Task.mk 1 1 "" "" (TaskDate.mk 1 1 1 0 0) none none]
      (ManagerState.mk
        [Task.mk 0 1 "" "" (TaskDate.mk 1 1 1 0 0) none none,
         Task.mk 1 1 "" "" (TaskDate.mk 1 1 1 0 0) none none]
        [Task.mk 0 1 "" "" (TaskDate.mk 1 1 1 0 0) none none,
         Task.mk 1 1 "" "" (TaskDate.mk 1 1 1 0 0) none none])
      []
      (ManagerState.mk
        [Task.mk 0 1 "" "" (TaskDate.mk 1 1 1 0 0) none none,
         Task.mk 1 1 "" "" (TaskDate.mk 1 1 1 0 0) none none]
        [Task.mk 0 1 "" "" (TaskDate.mk 1 1 1 0 0) none none,
         Task.mk 1 1 "" "" (TaskDate.mk 1 1 1 0 0) none none])
      (by decide)
  · exact claim_C3_failure_propagates.2.2 [Conn.mk 1 false] (TaskDate.mk 1 1 1 0 0)
      [TaskDate.mk 1 1 1 0 6, TaskDate.mk 1 1 1 0 12]
      (ManagerState.mk [Task.mk 0 1 "" "" (TaskDate.mk 1 1 1 0 0) none none]
        [Task.mk 0 1 "" "" (TaskDate.mk 1 1 1 0 0) none none])
      (ManagerState.mk [Task.mk 0 1 "" "" (TaskDate.mk 1 1 1 0 0) none none]
        [Task.mk 0 1 "" "" (TaskDate.mk 1 1 1 0 0) none none])
      [] (by decide)

end Reminder
